import Mathlib

/-!
Verification development for the Bitcoin price sampling/reporting job
(`bitcoinTask.py`, `emailBodyGen.py`).

Shallow embedding conventions:
* Timestamps are abstract tokens modelled as `ℕ` (the localized datetimes are
  only carried around and printed, never computed with).
* Float prices and statistics are modelled as exact rationals `ℚ`.
* The HTTP fetch (`fetch_bpi`) is an injected function `ℕ → FetchResult`
  giving the result of the fetch on each tick; `convert_utc_to_timezone` is an
  injected total function `conv : ℕ → ℕ` (the spec's `localize` capability).
* Wall-clock time is modelled tick-wise: each loop iteration consumes exactly
  one sampling interval (the `time.sleep` call), so the elapsed time checked
  at the top of iteration `k` is `k * interval` seconds.
* Fallible Python code (raising / `return None`) is modelled with
  `Option` / `Except`.
-/

/-- One collected sample: `{"time": <localized datetime>, "price": <float>}`
appended by `collect_data` (`bitcoinTask.py` line 132). -/
structure Sample where
  time : ℕ
  price : ℚ
deriving DecidableEq, Repr

/-- Result of one call of `fetch_bpi` (`bitcoinTask.py` lines 37-48).
On success the function returns the dict `{"date": date, "price": price}`
where `price` is the parsed `rate_float` (which is `None` when the JSON held
a null); on any exception it logs and returns the tuple `(None, None)`. -/
inductive FetchResult where
  | ok (date : ℕ) (price : Option ℚ)
  | err
deriving DecidableEq, Repr

/-- The body of the `while time.time() - start_time < total_time` loop of
`collect_data` (`bitcoinTask.py` lines 121-135), tick-modelled: `k` is the
tick index, so the elapsed seconds at the loop test are `k * interval`;
`interval` and `total` are in seconds.  Each iteration:
* tests the loop condition;
* calls `fetch_bpi` (here `fetch k`);
* unpacks `result["date"], result["price"]` — on the failure sentinel
  `(None, None)` this raises (string subscript on a tuple), the exception is
  caught only by the handler wrapping the whole loop, and `collect_data`
  returns `None`: hence the whole result is `none`;
* appends `{"time": conv date, "price": p}` when the price is not `None`,
  and silently skips the sample otherwise;
* sleeps one interval and continues.
`fuel` is a termination bound only: `collect_data` passes `total + 1`, which
is never exhausted when `0 < interval` (the loop runs at most `total` ticks). -/
def collect_go (fetch : ℕ → FetchResult) (conv : ℕ → ℕ) (interval total : ℕ) :
    ℕ → ℕ → Option (List Sample)
  | 0, _ => some []
  | fuel + 1, k =>
    if k * interval < total then
      match fetch k with
      | FetchResult.err => none
      | FetchResult.ok date priceOpt =>
        match priceOpt with
        | some p =>
          Option.map (fun rest => { time := conv date, price := p } :: rest)
            (collect_go fetch conv interval total fuel (k + 1))
        | none => collect_go fetch conv interval total fuel (k + 1)
    else some []

/-- `collect_data(sleet_in_min, run_time_min, target_timezone, url)`
(`bitcoinTask.py` lines 113-144).  `total_time = run_time_min * 60` seconds,
the sleep is `sleet_in_min * 60` seconds; on an uncaught exception inside the
loop the handler at lines 142-144 logs and returns `None`. -/
def collect_data (fetch : ℕ → FetchResult) (conv : ℕ → ℕ)
    (sleet_in_min run_time_min : ℕ) : Option (List Sample) :=
  collect_go fetch conv (sleet_in_min * 60) (run_time_min * 60)
    (run_time_min * 60 + 1) 0

/-- Summation as numpy performs it: a fold of `+` over the array
(exact in `ℚ`, where reassociation is harmless). -/
def np_sum (l : List ℚ) : ℚ := l.foldl (· + ·) 0

/-- `np.mean(prices)`: the sum of the entries divided by their number. -/
def np_mean (l : List ℚ) : ℚ := np_sum l / (l.length : ℚ)

/-- The square of `np.std(prices)`: numpy's population variance, the mean of
the squared deviations from the mean (divisor `N`).  The standard deviation
itself is the nonnegative square root of this value, which is irrational in
general; every claim about it is phrased through this square. -/
def np_var (l : List ℚ) : ℚ := np_mean (l.map (fun p => (p - np_mean l) ^ 2))

/-- `max(prices)` as Python computes it: a fold of binary `max` over the
list, raising (`none`) on an empty sequence.  This is exactly `List.max?`. -/
def pyMax (l : List ℚ) : Option ℚ := l.max?

/-- `min(prices)`, analogously. -/
def pyMin (l : List ℚ) : Option ℚ := l.min?

/-- Failures of the report computation in `get_email_body`
(`emailBodyGen.py` lines 14-15): `max()`/`min()` on an empty sequence raise
(the spec's `InsufficientDataError`), and `times[...]` can raise an
`IndexError` when `times` is shorter than `prices`. -/
inductive ReportError where
  | insufficientData
  | indexError
deriving DecidableEq, Repr

/-- The statistics block of `get_email_body` (`emailBodyGen.py` lines 14-17):
max/min price, their timestamps, mean and (squared) standard deviation.
This record is the spec's `SummaryReport` value (its `stddev` is the square
root of `var_price`). -/
structure SummaryReport where
  max_price : ℚ
  min_price : ℚ
  max_time : ℕ
  min_time : ℕ
  mean_price : ℚ
  var_price : ℚ
deriving DecidableEq, Repr

/-- Lines 14-17 of `emailBodyGen.py`:
`max_price, min_price = max(prices), min(prices)`;
`max_time, min_time = times[prices.index(max_price)], times[prices.index(min_price)]`;
`mean_price = np.mean(prices)`; `std_price = np.std(prices)`.
Python's `list.index` returns the first occurrence, embedded as
`List.indexOf`. -/
def summarize (times : List ℕ) (prices : List ℚ) :
    Except ReportError SummaryReport :=
  match pyMax prices, pyMin prices with
  | some maxP, some minP =>
    match times.get? (prices.indexOf maxP), times.get? (prices.indexOf minP) with
    | some maxT, some minT =>
      Except.ok { max_price := maxP, min_price := minP,
                  max_time := maxT, min_time := minT,
                  mean_price := np_mean prices, var_price := np_var prices }
    | _, _ => Except.error ReportError.indexError
  | _, _ => Except.error ReportError.insufficientData

/-- The statistics computed by `graph_plot` (`bitcoinTask.py` lines 163-170):
`min_price = min(prices)`, `max_price = max(prices)`,
`min_index = prices.index(min_price)`, `max_index = prices.index(max_price)`,
`mean_price = float(np.mean(prices))`, `std_price = float(np.std(prices))`
(the `float(...)` wrappers are identities in this model; the squared standard
deviation is stored, as in `SummaryReport`). -/
structure GraphStats where
  min_price : ℚ
  max_price : ℚ
  min_index : ℕ
  max_index : ℕ
  mean_price : ℚ
  var_price : ℚ
deriving DecidableEq, Repr

/-- The statistics prefix of `graph_plot` wrapped in its catch-all handler
(`bitcoinTask.py` lines 158, 216-218): `min()`/`max()` raise on an empty
price list, the exception is caught, and the function returns `None`. -/
def graph_stats (prices : List ℚ) : Option GraphStats :=
  match pyMin prices, pyMax prices with
  | some minP, some maxP =>
    some { min_price := minP, max_price := maxP,
           min_index := prices.indexOf minP, max_index := prices.indexOf maxP,
           mean_price := np_mean prices, var_price := np_var prices }
  | _, _ => none

/-- Python's `round(x, 2)` denominator-free core: round a rational to the
nearest integer, ties to the even integer (banker's rounding, as for floats). -/
def roundHalfEven (q : ℚ) : ℤ :=
  let f : ℤ := Rat.floor q
  if q - (f : ℚ) < 1 / 2 then f
  else if (1 : ℚ) / 2 < q - (f : ℚ) then f + 1
  else if f % 2 = 0 then f else f + 1

/-- Python's `round(x, 2)`: round to two decimal places, ties to even. -/
def round2 (q : ℚ) : ℚ := (roundHalfEven (q * 100) : ℚ) / 100

/-- Split a reversed digit list into groups of three (the thousands groups,
least-significant group first). -/
def group3 : List Char → List (List Char)
  | [] => []
  | [a] => [[a]]
  | [a, b] => [[a, b]]
  | a :: b :: c :: rest => [a, b, c] :: group3 rest

/-- Render a natural number in decimal with thousands separators, as the
integer part of Python's `f"{x:,}"` format does. -/
def commaSep (n : ℕ) : String :=
  String.intercalate (",")
    (((group3 (Nat.repr n).data.reverse).map
        (fun g => String.mk g.reverse)).reverse)

/-- Python's `f"{x:,}"` applied to the result of `round(_, 2)`: thousands
separators on the integer part, and the minimal decimal expansion of the
fractional part (`str(float)` prints `200.0`, `123.4`, `81.65`, `0.05`).
The argument is a multiple of `1/100`, so two fractional digits suffice. -/
def fmt2 (q : ℚ) : String :=
  let sign : String := if q < 0 then "-" else ""
  let n : ℕ := (Rat.floor (|q| * 100)).natAbs
  let ip : ℕ := n / 100
  let fr : ℕ := n % 100
  let frs : String :=
    if fr % 10 = 0 then Nat.repr (fr / 10)
    else if fr < 10 then "0" ++ Nat.repr fr
    else Nat.repr fr
  sign ++ commaSep ip ++ "." ++ frs

/-- The table rows of the HTML body built at `emailBodyGen.py` lines 19-35
(the fixed surrounding HTML scaffolding is elided; each row is the pair
`(metric name, formatted cell)`).  `sqrtQ` is the injected square root used
to pass from the stored squared deviation to `std_price` (float `sqrt` has
no exact rational counterpart; nothing below depends on its properties). -/
def render (sqrtQ : ℚ → ℚ) (total_run_time_min : ℕ) (r : SummaryReport) :
    List (String × String) :=
  let std : ℚ := sqrtQ r.var_price
  [("Maximum Price", fmt2 (round2 r.max_price) ++ " USD"),
   ("Time of Max Price", Nat.repr r.max_time),
   ("Minimum Price", fmt2 (round2 r.min_price) ++ " USD"),
   ("Time of Min Price", Nat.repr r.min_time),
   ("Mean Price", fmt2 (round2 r.mean_price) ++ " USD"),
   ("Standard Deviation", fmt2 (round2 std) ++ " USD"),
   ("Price Variability (Mean ± Std)",
     fmt2 (round2 (r.mean_price - std)) ++ " - "
       ++ fmt2 (round2 (r.mean_price + std)) ++ " USD")]

/-- `get_email_body(total_run_time_min, times, prices)`
(`emailBodyGen.py` lines 10-35): compute the statistics of lines 14-17 and
render them into the fixed-schema table of lines 19-35. -/
def get_email_body (sqrtQ : ℚ → ℚ) (total_run_time_min : ℕ)
    (times : List ℕ) (prices : List ℚ) :
    Except ReportError (List (String × String)) :=
  Except.map (render sqrtQ total_run_time_min) (summarize times prices)

/-! ## Helper lemmas -/

/-- Under the tick model, iteration `k` runs exactly when `k < ⌈t / i⌉`. -/
lemma tick_lt {i t k : ℕ} (hi : 0 < i) : k * i < t ↔ k < (t + i - 1) / i := by
  have h1 : k < (t + i - 1) / i ↔ (k + 1) * i ≤ t + i - 1 := by
    rw [Nat.lt_iff_add_one_le, Nat.le_div_iff_mul_le hi]
  rw [h1, add_mul, one_mul]
  generalize k * i = a
  omega

/-- The number of ticks is at most the total duration (in the same unit),
since each tick consumes at least one unit. -/
lemma numTicks_le {i t : ℕ} (hi : 0 < i) : (t + i - 1) / i ≤ t := by
  by_contra h
  push_neg at h
  have h2 : t * i < t := (tick_lt hi).mpr h
  have h3 : t * 1 ≤ t * i := Nat.mul_le_mul_left t hi
  rw [mul_one] at h3
  exact absurd h2 (not_lt.mpr h3)

/-- Rescaling the loop condition from minutes to seconds. -/
lemma scale60 (i r k : ℕ) : k * (i * 60) < r * 60 ↔ k * i < r := by
  have h : k * (i * 60) = k * i * 60 := by ring
  rw [h]
  generalize k * i = a
  omega

/-- When every fetch succeeds with a non-null price, the loop appends one
sample per tick: starting at tick `k` with enough fuel, it returns a list of
`N - k` samples, where `N` characterizes the executed ticks. -/
lemma collect_go_len (fetch : ℕ → FetchResult) (conv : ℕ → ℕ) (i t N : ℕ)
    (hN : ∀ k, k * i < t ↔ k < N)
    (hok : ∀ k, ∃ d p, fetch k = FetchResult.ok d (some p)) :
    ∀ fuel k, N ≤ k + fuel →
      ∃ l, collect_go fetch conv i t fuel k = some l ∧ l.length = N - k := by
  intro fuel
  induction fuel with
  | zero =>
    intro k hk
    exact ⟨[], rfl, by simp only [List.length_nil]; omega⟩
  | succ fuel ih =>
    intro k hk
    by_cases h : k * i < t
    · obtain ⟨d, p, hf⟩ := hok k
      obtain ⟨l, hl, hlen⟩ := ih (k + 1) (by omega)
      have hklt : k < N := (hN k).mp h
      refine ⟨{ time := conv d, price := p } :: l, ?_, ?_⟩
      · simp [collect_go, h, hf, hl]
      · simp [hlen]
        omega
    · have hge : N ≤ k := by
        have := (hN k).not
        omega
      exact ⟨[], by simp [collect_go, h], by simp only [List.length_nil]; omega⟩

/-- If the first failing tick is `k0`, the loop reaches it (every earlier
tick succeeds or skips) and the failure sentinel `(None, None)` is
subscripted, so the whole call returns `none`. -/
lemma collect_go_err (fetch : ℕ → FetchResult) (conv : ℕ → ℕ) (i t k0 : ℕ)
    (hmin : ∀ j, j < k0 → fetch j ≠ FetchResult.err)
    (hcond : k0 * i < t) (herr : fetch k0 = FetchResult.err) :
    ∀ fuel k, k ≤ k0 → k0 - k < fuel →
      collect_go fetch conv i t fuel k = none := by
  intro fuel
  induction fuel with
  | zero => intro k h1 h2; omega
  | succ fuel ih =>
    intro k h1 h2
    by_cases hk : k = k0
    · subst hk
      simp [collect_go, hcond, herr]
    · have hklt : k < k0 := by omega
      have hle : k * i ≤ k0 * i := Nat.mul_le_mul_right i hklt.le
      have hcondk : k * i < t := lt_of_le_of_lt hle hcond
      have hrec := ih (k + 1) (by omega) (by omega)
      cases hfj : fetch k with
      | err => exact absurd hfj (hmin k hklt)
      | ok d p =>
        cases p with
        | some q => simp [collect_go, hcondk, hfj, hrec]
        | none => simp [collect_go, hcondk, hfj, hrec]

/-- Folding `+` from any seed equals the seed plus the list sum. -/
lemma foldl_add_eq (l : List ℚ) : ∀ a : ℚ, l.foldl (· + ·) a = a + l.sum := by
  induction l with
  | nil => intro a; simp
  | cons x xs ih =>
    intro a
    simp [ih]
    ring

/-- numpy's fold-based sum agrees with the list sum. -/
lemma np_sum_eq_sum (l : List ℚ) : np_sum l = l.sum := by
  simp [np_sum, foldl_add_eq]

/-- Python's `max` on a non-empty list succeeds. -/
lemma pyMax_ne_nil {l : List ℚ} (h : l ≠ []) : ∃ m, pyMax l = some m := by
  cases l with
  | nil => exact absurd rfl h
  | cons x xs => exact ⟨xs.foldl max x, rfl⟩

/-- Python's `min` on a non-empty list succeeds. -/
lemma pyMin_ne_nil {l : List ℚ} (h : l ≠ []) : ∃ m, pyMin l = some m := by
  cases l with
  | nil => exact absurd rfl h
  | cons x xs => exact ⟨xs.foldl min x, rfl⟩

/-- Python's `max` returns a member of the list that bounds it above. -/
lemma pyMax_spec {l : List ℚ} {m : ℚ} (h : pyMax l = some m) :
    m ∈ l ∧ ∀ x ∈ l, x ≤ m := by
  refine ⟨List.max?_mem (fun a b => max_choice a b) h, ?_⟩
  exact (List.max?_le_iff (fun _ _ _ => max_le_iff) h).mp le_rfl

/-- Python's `min` returns a member of the list that bounds it below. -/
lemma pyMin_spec {l : List ℚ} {m : ℚ} (h : pyMin l = some m) :
    m ∈ l ∧ ∀ x ∈ l, m ≤ x := by
  refine ⟨List.min?_mem (fun a b => min_choice a b) h, ?_⟩
  exact (List.le_min?_iff (fun _ _ _ => le_min_iff) h).mp le_rfl

/-- `list.index` minimality: every position strictly before `indexOf a l`
holds a value different from `a`. -/
lemma lt_indexOf_ne {a : ℚ} :
    ∀ (l : List ℚ) (j : ℕ), j < l.indexOf a → l.get? j ≠ some a := by
  intro l
  induction l with
  | nil =>
    intro j hj
    rw [List.indexOf_nil] at hj
    omega
  | cons x xs ih =>
    intro j hj
    by_cases hxa : x = a
    · have hb : (x == a) = true := beq_iff_eq.mpr hxa
      rw [List.indexOf_cons, hb, cond_true] at hj
      omega
    · cases j with
      | zero =>
        rw [List.get?_cons_zero]
        intro hc
        exact hxa (Option.some.inj hc)
      | succ j =>
        have hb : (x == a) = false := beq_eq_false_iff_ne.mpr hxa
        rw [List.indexOf_cons, hb, cond_false] at hj
        have hj' : j < xs.indexOf a := by omega
        simpa using ih j hj'

/-- Mean is bounded above by any upper bound of the list. -/
lemma np_mean_le {l : List ℚ} {m : ℚ} (h : l ≠ []) (hub : ∀ x ∈ l, x ≤ m) :
    np_mean l ≤ m := by
  have hl : (0 : ℚ) < (l.length : ℚ) := by
    exact_mod_cast List.length_pos.mpr h
  rw [np_mean, np_sum_eq_sum, div_le_iff hl]
  have hs := List.sum_le_card_nsmul l m hub
  rw [nsmul_eq_mul] at hs
  linarith

/-- Mean is bounded below by any lower bound of the list. -/
lemma le_np_mean {l : List ℚ} {m : ℚ} (h : l ≠ []) (hlb : ∀ x ∈ l, m ≤ x) :
    m ≤ np_mean l := by
  have hl : (0 : ℚ) < (l.length : ℚ) := by
    exact_mod_cast List.length_pos.mpr h
  rw [np_mean, np_sum_eq_sum, le_div_iff hl]
  have hs := List.card_nsmul_le_sum l m hlb
  rw [nsmul_eq_mul] at hs
  linarith

/-- On a non-empty series (projected to parallel `times`/`prices` lists as
`main` does), `summarize` succeeds, and its fields are exactly the values of
lines 14-17 of `emailBodyGen.py`. -/
lemma summarize_ok (s : List Sample) (h : s ≠ []) :
    ∃ r, summarize (s.map Sample.time) (s.map Sample.price) = Except.ok r ∧
      pyMax (s.map Sample.price) = some r.max_price ∧
      pyMin (s.map Sample.price) = some r.min_price ∧
      (s.map Sample.time).get? ((s.map Sample.price).indexOf r.max_price) =
        some r.max_time ∧
      (s.map Sample.time).get? ((s.map Sample.price).indexOf r.min_price) =
        some r.min_time ∧
      r.mean_price = np_mean (s.map Sample.price) ∧
      r.var_price = np_var (s.map Sample.price) := by
  have hp : s.map Sample.price ≠ [] := by
    simpa [List.map_eq_nil] using h
  obtain ⟨maxP, hmax⟩ := pyMax_ne_nil hp
  obtain ⟨minP, hmin⟩ := pyMin_ne_nil hp
  have hmaxmem := (pyMax_spec hmax).1
  have hminmem := (pyMin_spec hmin).1
  have hlen : (s.map Sample.time).length = (s.map Sample.price).length := by
    simp
  have hmaxidx : (s.map Sample.price).indexOf maxP < (s.map Sample.time).length := by
    rw [hlen]
    exact List.indexOf_lt_length.mpr hmaxmem
  have hminidx : (s.map Sample.price).indexOf minP < (s.map Sample.time).length := by
    rw [hlen]
    exact List.indexOf_lt_length.mpr hminmem
  have hgmax := List.get?_eq_get hmaxidx
  have hgmin := List.get?_eq_get hminidx
  refine ⟨{ max_price := maxP, min_price := minP,
            max_time := (s.map Sample.time).get ⟨_, hmaxidx⟩,
            min_time := (s.map Sample.time).get ⟨_, hminidx⟩,
            mean_price := np_mean (s.map Sample.price),
            var_price := np_var (s.map Sample.price) },
          ?_, hmax, hmin, hgmax, hgmin, rfl, rfl⟩
  unfold summarize
  simp only [hmax, hmin, hgmax, hgmin]

/-! ## Claim theorems -/

/-- C1: the claim says a single fetch failure is logged, the sample skipped,
and the loop continues, so that the sampler still returns the samples of the
successful ticks.  The code does not do this: `fetch_bpi` returns the tuple
`(None, None)` on failure (contradicting its own docstring, which promises
`None`), `collect_data` subscripts it with a string key, the raised exception
is caught only by the handler wrapping the whole loop, and the run returns
`None`.  Concretely, with a 2-minute run sampled every minute whose first
fetch succeeds (price 100) and whose second fetch fails, the whole run
returns `none`, discarding the first sample, instead of returning the
one-sample series the claim requires. -/
theorem collect_fetch_failure_crashes_run :
    collect_data
        (fun k => if k = 0 then FetchResult.ok 5 (some 100) else FetchResult.err)
        (fun d => d) 1 2 = none := by
  decide

/-- C9: whenever at least one fetch fails on an executed tick, `collect_data`
returns `None` (its failure sentinel), discarding every sample collected on
earlier ticks: the failure sentinel `(None, None)` is subscripted with a
string key, the exception is caught by the handler wrapping the whole loop,
and that handler returns `None`. -/
theorem collect_any_failure_returns_none (fetch : ℕ → FetchResult)
    (conv : ℕ → ℕ) (i r : ℕ) (hi : 0 < i)
    (hfail : ∃ k, k * (i * 60) < r * 60 ∧ fetch k = FetchResult.err) :
    collect_data fetch conv i r = none := by
  have hspec := Nat.find_spec hfail
  set k0 := Nat.find hfail with hk0def
  have hmin : ∀ j, j < k0 → fetch j ≠ FetchResult.err := by
    intro j hj hne
    have hle : j * (i * 60) ≤ k0 * (i * 60) := Nat.mul_le_mul_right _ hj.le
    have hcond : j * (i * 60) < r * 60 := lt_of_le_of_lt hle hspec.1
    exact Nat.find_min hfail hj ⟨hcond, hne⟩
  have hk0r : k0 ≤ r * 60 := by
    have h1 : k0 ≤ k0 * (i * 60) := Nat.le_mul_of_pos_right _ (by omega)
    omega
  unfold collect_data
  exact collect_go_err fetch conv (i * 60) (r * 60) k0 hmin hspec.1 hspec.2
    (r * 60 + 1) 0 (Nat.zero_le _) (by omega)

/-- Witness for C9: a run whose every fetch fails returns `none`. -/
theorem collect_any_failure_returns_none_witness :
    collect_data (fun _ => FetchResult.err) (fun d => d) 1 2 = none :=
  collect_any_failure_returns_none (fun _ => FetchResult.err) (fun d => d) 1 2
    (by omega) ⟨0, by omega, rfl⟩

/-- C2 counterexample: with `duration = 5` minutes and `interval = 2` minutes
and no fetch failure, the loop executes a tick whenever the elapsed time
`k * interval` is under the duration, i.e. at `k = 0, 1, 2`: three samples,
whereas `floor(5 / 2) = 2`.  The claimed count is the floor, the code's count
is the ceiling. -/
theorem collect_count_floor_counterexample :
    Option.map List.length
        (collect_data (fun k => FetchResult.ok k (some 100)) (fun d => d) 2 5) =
      some 3 ∧ (3 : ℕ) ≠ 5 / 2 := by
  constructor
  · decide
  · decide

/-- C2 amended: for positive duration and interval, when no fetch fails (and
no price field is null), the number of samples is `ceil(duration / interval)`
(written `(r + i - 1) / i` in natural division), which equals
`floor(duration / interval)` exactly when the interval divides the
duration. -/
theorem collect_count_ceil (fetch : ℕ → FetchResult) (conv : ℕ → ℕ)
    (i r : ℕ) (hi : 0 < i)
    (hok : ∀ k, ∃ d p, fetch k = FetchResult.ok d (some p)) :
    ∃ l, collect_data fetch conv i r = some l ∧ l.length = (r + i - 1) / i := by
  have hN : ∀ k, k * (i * 60) < r * 60 ↔ k < (r + i - 1) / i := by
    intro k
    rw [scale60, tick_lt hi]
  have hr60 : (r + i - 1) / i ≤ r := numTicks_le hi
  have hfuel : (r + i - 1) / i ≤ 0 + (r * 60 + 1) := by omega
  obtain ⟨l, hl, hlen⟩ :=
    collect_go_len fetch conv (i * 60) (r * 60) ((r + i - 1) / i) hN hok
      (r * 60 + 1) 0 hfuel
  exact ⟨l, hl, by simpa using hlen⟩

/-- Witness for C2 amended: `duration = 5`, `interval = 2`, all fetches
succeed: the count is `(5 + 2 - 1) / 2 = 3`. -/
theorem collect_count_ceil_witness :
    ∃ l, collect_data (fun k => FetchResult.ok k (some 100)) (fun d => d) 2 5 =
        some l ∧ l.length = (5 + 2 - 1) / 2 :=
  collect_count_ceil (fun k => FetchResult.ok k (some 100)) (fun d => d) 2 5
    (by omega) (fun k => ⟨k, 100, rfl⟩)

/-- C3: on an empty series the summary-statistics computation of
`get_email_body` fails with the `InsufficientDataError` (Python's `max()` on
an empty sequence raises), and so does the whole report builder: a non-empty
series is a precondition for the statistics. -/
theorem summarize_empty_insufficient (sqrtQ : ℚ → ℚ) (total : ℕ)
    (times : List ℕ) :
    summarize times [] = Except.error ReportError.insufficientData ∧
      get_email_body sqrtQ total times [] =
        Except.error ReportError.insufficientData :=
  ⟨rfl, rfl⟩

/-- C4: the mean computed by the report builder is the arithmetic mean of the
price values and the (squared) standard deviation is the population variance
(divisor `N`, not Bessel-corrected), computed over the price values only; on
`[100, 300, 200]` the mean is `200` and the variance is `20000 / 3`, whose
nonnegative square root (the standard deviation) lies strictly between
`81.6496` and `81.6497` — the spec's `81.6496...` (a Bessel-corrected
deviation would be `100`). -/
theorem np_mean_var_population :
    (∀ l : List ℚ, l ≠ [] →
        np_mean l = l.sum / (l.length : ℚ) ∧
        np_var l =
          (l.map (fun p => (p - l.sum / (l.length : ℚ)) ^ 2)).sum /
            (l.length : ℚ)) ∧
      np_mean [100, 300, 200] = 200 ∧
      np_var [100, 300, 200] = 20000 / 3 ∧
      ((816496 : ℚ) / 10000) ^ 2 < 20000 / 3 ∧
      (20000 : ℚ) / 3 < ((816497 : ℚ) / 10000) ^ 2 := by
  refine ⟨fun l _ => ⟨?_, ?_⟩, ?_, ?_, by norm_num, by norm_num⟩
  · rw [np_mean, np_sum_eq_sum]
  · simp only [np_var, np_mean, np_sum_eq_sum, List.length_map]
  · norm_num [np_mean, np_sum]
  · norm_num [np_var, np_mean, np_sum]

/-- Witness for C4: the population formulas evaluated on the spec's
scenario list. -/
theorem np_mean_var_population_witness :
    ([100, 300, 200] : List ℚ) ≠ [] ∧
      np_mean [100, 300, 200] =
        ([100, 300, 200] : List ℚ).sum /
          ((([100, 300, 200] : List ℚ).length : ℕ) : ℚ) :=
  ⟨by decide, (np_mean_var_population.1 [100, 300, 200] (by decide)).1⟩

/-- C5: on a non-empty series, `summarize` returns the literal minimum and
maximum of the price values, and `min_time` / `max_time` are the timestamps
of the first sample in collection order attaining each extreme price
(`list.index` first-occurrence tie-break). -/
theorem summarize_extremes_first_occurrence (s : List Sample) (h : s ≠ []) :
    ∃ r, summarize (s.map Sample.time) (s.map Sample.price) = Except.ok r ∧
      r.min_price ∈ s.map Sample.price ∧
      (∀ q ∈ s.map Sample.price, r.min_price ≤ q) ∧
      r.max_price ∈ s.map Sample.price ∧
      (∀ q ∈ s.map Sample.price, q ≤ r.max_price) ∧
      (∃ i, (s.map Sample.price).get? i = some r.min_price ∧
        (s.map Sample.time).get? i = some r.min_time ∧
        ∀ j < i, (s.map Sample.price).get? j ≠ some r.min_price) ∧
      (∃ i, (s.map Sample.price).get? i = some r.max_price ∧
        (s.map Sample.time).get? i = some r.max_time ∧
        ∀ j < i, (s.map Sample.price).get? j ≠ some r.max_price) := by
  obtain ⟨r, hr, hmax, hmin, hgmax, hgmin, _, _⟩ := summarize_ok s h
  have hmaxs := pyMax_spec hmax
  have hmins := pyMin_spec hmin
  refine ⟨r, hr, hmins.1, hmins.2, hmaxs.1, hmaxs.2, ?_, ?_⟩
  · exact ⟨(s.map Sample.price).indexOf r.min_price,
      List.indexOf_get? hmins.1, hgmin, fun j hj => lt_indexOf_ne _ j hj⟩
  · exact ⟨(s.map Sample.price).indexOf r.max_price,
      List.indexOf_get? hmaxs.1, hgmax, fun j hj => lt_indexOf_ne _ j hj⟩

/-- Witness for C5: a two-sample series with a tie-free extremum pair. -/
theorem summarize_extremes_first_occurrence_witness :
    ∃ r, summarize (([⟨0, 100⟩, ⟨1, 50⟩] : List Sample).map Sample.time)
          (([⟨0, 100⟩, ⟨1, 50⟩] : List Sample).map Sample.price) = Except.ok r ∧
      r.min_price ∈ ([⟨0, 100⟩, ⟨1, 50⟩] : List Sample).map Sample.price ∧
      (∀ q ∈ ([⟨0, 100⟩, ⟨1, 50⟩] : List Sample).map Sample.price,
        r.min_price ≤ q) ∧
      r.max_price ∈ ([⟨0, 100⟩, ⟨1, 50⟩] : List Sample).map Sample.price ∧
      (∀ q ∈ ([⟨0, 100⟩, ⟨1, 50⟩] : List Sample).map Sample.price,
        q ≤ r.max_price) ∧
      (∃ i, (([⟨0, 100⟩, ⟨1, 50⟩] : List Sample).map Sample.price).get? i =
          some r.min_price ∧
        (([⟨0, 100⟩, ⟨1, 50⟩] : List Sample).map Sample.time).get? i =
          some r.min_time ∧
        ∀ j < i, (([⟨0, 100⟩, ⟨1, 50⟩] : List Sample).map Sample.price).get? j ≠
          some r.min_price) ∧
      (∃ i, (([⟨0, 100⟩, ⟨1, 50⟩] : List Sample).map Sample.price).get? i =
          some r.max_price ∧
        (([⟨0, 100⟩, ⟨1, 50⟩] : List Sample).map Sample.time).get? i =
          some r.max_time ∧
        ∀ j < i, (([⟨0, 100⟩, ⟨1, 50⟩] : List Sample).map Sample.price).get? j ≠
          some r.max_price) :=
  summarize_extremes_first_occurrence [⟨0, 100⟩, ⟨1, 50⟩] (by decide)

/-- C6: on every non-empty series the summary statistics satisfy
`min ≤ mean ≤ max`. -/
theorem summarize_min_le_mean_le_max (s : List Sample) (h : s ≠ []) :
    ∃ r, summarize (s.map Sample.time) (s.map Sample.price) = Except.ok r ∧
      r.min_price ≤ r.mean_price ∧ r.mean_price ≤ r.max_price := by
  obtain ⟨r, hr, hmax, hmin, _, _, hmean, _⟩ := summarize_ok s h
  have hp : s.map Sample.price ≠ [] := by simpa [List.map_eq_nil] using h
  refine ⟨r, hr, ?_, ?_⟩
  · rw [hmean]
    exact le_np_mean hp (pyMin_spec hmin).2
  · rw [hmean]
    exact np_mean_le hp (pyMax_spec hmax).2

/-- Witness for C6 on a concrete two-sample series. -/
theorem summarize_min_le_mean_le_max_witness :
    ∃ r, summarize (([⟨0, 100⟩, ⟨1, 300⟩] : List Sample).map Sample.time)
          (([⟨0, 100⟩, ⟨1, 300⟩] : List Sample).map Sample.price) =
        Except.ok r ∧
      r.min_price ≤ r.mean_price ∧ r.mean_price ≤ r.max_price :=
  summarize_min_le_mean_le_max [⟨0, 100⟩, ⟨1, 300⟩] (by decide)

/-- C7: on a singleton series `[(t, p)]` the summary succeeds with
`min = max = mean = p` and a zero variance: the standard deviation, its
nonnegative square root, is `0` as well. -/
theorem summarize_singleton (t : ℕ) (p : ℚ) :
    summarize [t] [p] =
      Except.ok { max_price := p, min_price := p, max_time := t, min_time := t,
                  mean_price := p, var_price := 0 } := by
  have hmean : np_mean [p] = p := by
    simp [np_mean, np_sum]
  have hvar : np_var [p] = 0 := by
    simp [np_var, hmean, np_mean, np_sum]
  unfold summarize pyMax pyMin
  simp [List.max?, List.min?, List.indexOf_cons, hmean, hvar]

/-- C8: on every non-empty series the report builder succeeds and produces
the fixed-schema table: the seven metric rows in a fixed order, each numeric
cell being the metric's value under two-decimal (banker's) rounding with
thousands separators (`fmt2 ∘ round2`, Python's `f-string` `:,` applied to
`round(x, 2)`). -/
theorem render_fixed_schema (sqrtQ : ℚ → ℚ) (total : ℕ) (s : List Sample)
    (h : s ≠ []) :
    ∃ r, summarize (s.map Sample.time) (s.map Sample.price) = Except.ok r ∧
      get_email_body sqrtQ total (s.map Sample.time) (s.map Sample.price) =
        Except.ok
          [("Maximum Price", fmt2 (round2 r.max_price) ++ " USD"),
           ("Time of Max Price", Nat.repr r.max_time),
           ("Minimum Price", fmt2 (round2 r.min_price) ++ " USD"),
           ("Time of Min Price", Nat.repr r.min_time),
           ("Mean Price", fmt2 (round2 r.mean_price) ++ " USD"),
           ("Standard Deviation", fmt2 (round2 (sqrtQ r.var_price)) ++ " USD"),
           ("Price Variability (Mean ± Std)",
             fmt2 (round2 (r.mean_price - sqrtQ r.var_price)) ++ " - "
               ++ fmt2 (round2 (r.mean_price + sqrtQ r.var_price)) ++ " USD")] := by
  obtain ⟨r, hr, _, _, _, _, _, _⟩ := summarize_ok s h
  refine ⟨r, hr, ?_⟩
  unfold get_email_body
  rw [hr]
  rfl

/-- Witness for C8 on a concrete singleton series (with the identity in
place of the injected square root). -/
theorem render_fixed_schema_witness :
    ∃ r, summarize (([⟨7, 100⟩] : List Sample).map Sample.time)
          (([⟨7, 100⟩] : List Sample).map Sample.price) = Except.ok r ∧
      get_email_body (fun q => q) 60 (([⟨7, 100⟩] : List Sample).map Sample.time)
          (([⟨7, 100⟩] : List Sample).map Sample.price) =
        Except.ok
          [("Maximum Price", fmt2 (round2 r.max_price) ++ " USD"),
           ("Time of Max Price", Nat.repr r.max_time),
           ("Minimum Price", fmt2 (round2 r.min_price) ++ " USD"),
           ("Time of Min Price", Nat.repr r.min_time),
           ("Mean Price", fmt2 (round2 r.mean_price) ++ " USD"),
           ("Standard Deviation",
             fmt2 (round2 ((fun q => q) r.var_price)) ++ " USD"),
           ("Price Variability (Mean ± Std)",
             fmt2 (round2 (r.mean_price - (fun q => q) r.var_price)) ++ " - "
               ++ fmt2 (round2 (r.mean_price + (fun q => q) r.var_price))
               ++ " USD")] :=
  render_fixed_schema (fun q => q) 60 [⟨7, 100⟩] (by decide)

/-- C10: the statistics annotated on the chart (`graph_plot`) and those in
the emailed report (`get_email_body`) come from the same definitions —
`min`/`max` of the price list, first-occurrence `list.index` for the
extremum positions, numpy population mean and standard deviation — so on
every non-empty series the two derivations agree: equal extremes, equal mean
and (squared) standard deviation, and the chart's extremum indices select
exactly the report's extremum timestamps. -/
theorem graph_email_stats_agree (s : List Sample) (h : s ≠ []) :
    ∃ g r, graph_stats (s.map Sample.price) = some g ∧
      summarize (s.map Sample.time) (s.map Sample.price) = Except.ok r ∧
      g.min_price = r.min_price ∧ g.max_price = r.max_price ∧
      g.mean_price = r.mean_price ∧ g.var_price = r.var_price ∧
      (s.map Sample.time).get? g.min_index = some r.min_time ∧
      (s.map Sample.time).get? g.max_index = some r.max_time := by
  obtain ⟨r, hr, hmax, hmin, hgmax, hgmin, hmean, hvar⟩ := summarize_ok s h
  refine ⟨{ min_price := r.min_price, max_price := r.max_price,
            min_index := (s.map Sample.price).indexOf r.min_price,
            max_index := (s.map Sample.price).indexOf r.max_price,
            mean_price := np_mean (s.map Sample.price),
            var_price := np_var (s.map Sample.price) }, r, ?_, hr, rfl, rfl,
          hmean.symm, hvar.symm, hgmin, hgmax⟩
  unfold graph_stats
  simp only [hmin, hmax]

/-- Witness for C10 on a concrete two-sample series. -/
theorem graph_email_stats_agree_witness :
    ∃ g r, graph_stats (([⟨0, 100⟩, ⟨1, 300⟩] : List Sample).map Sample.price) =
        some g ∧
      summarize (([⟨0, 100⟩, ⟨1, 300⟩] : List Sample).map Sample.time)
          (([⟨0, 100⟩, ⟨1, 300⟩] : List Sample).map Sample.price) =
        Except.ok r ∧
      g.min_price = r.min_price ∧ g.max_price = r.max_price ∧
      g.mean_price = r.mean_price ∧ g.var_price = r.var_price ∧
      (([⟨0, 100⟩, ⟨1, 300⟩] : List Sample).map Sample.time).get? g.min_index =
        some r.min_time ∧
      (([⟨0, 100⟩, ⟨1, 300⟩] : List Sample).map Sample.time).get? g.max_index =
        some r.max_time :=
  graph_email_stats_agree [⟨0, 100⟩, ⟨1, 300⟩] (by decide)
